import Mathlib

/-!
# Verification of the ff4d FUSE/Dropbox core (`ff4d.py`)

Shallow embedding of the metadata cache, file-handle table, chunked upload
engine and filesystem operation layer of `ff4d.py`, together with theorems
settling the spec claims.

Modelling conventions:
* Python dicts used as records become Lean structures; a key that may be
  absent becomes an `Option` field (`none` = key not present).
* Byte strings are `List Nat` (we follow the source's original Python-2
  dialect, where `''` and `b''` coincide, so the empty text literal and the
  empty byte buffer are both `[]`).
* The Dropbox SDK is an external collaborator: its observable behaviour is a
  `Remote` oracle plus an explicit trace of `RemoteCall`s made.  Fresh upload
  session ids are produced from a counter threaded through the state.
* Exceptions become `Except Errno`; `FuseOSError(EIO)` is `Errno.eio`, etc.
  An uncaught Python `KeyError` is `Errno.eKey`.
-/

namespace FF4D

/-- FUSE error numbers surfaced by the source (`EIO`, `ENOENT`, `EOPNOTSUPP`,
`EREMOTEIO`) plus a marker for an uncaught `KeyError`. -/
inductive Errno where
  | eio
  | enoent
  | eopnotsupp
  | eremoteio
  | eKey
  deriving DecidableEq, Repr

/-- The `'.tag'` value attached by `dbxStruct` (`'file'` / `'folder'`). -/
inductive Tag where
  | file
  | folder
  deriving DecidableEq, Repr

/-- A child entry of a folder listing, as produced by `dbxStruct` on a
`FileMetadata`/`FolderMetadata` object.  `hasEntries` records whether the
dict has an `'entries'` key (it never does for real children, but the source
tests for it at line 263). -/
structure Child where
  path : String
  tag : Option Tag
  size : Nat
  clientModified : Option String
  isDeleted : Bool
  hasEntries : Bool
  cachets : Option Nat
  deriving DecidableEq, Repr

/-- A metadata dict as stored in `self.cache`.  `entries` is the `'entries'`
key (folder listings), `contents` the legacy `'contents'` key tested by
`removeFromCache`/`getDropboxMetadata` (no writer in the source ever sets
it), `cachets` the `'cachets'` expiry stamp, `idTok` the `'id'` token. -/
structure Item where
  path : String
  tag : Option Tag
  size : Nat
  client_modified : Option String
  entries : Option (List Child)
  contents : Option (List Child)
  cachets : Option Nat
  is_deleted : Bool
  idTok : Option Nat
  deriving DecidableEq, Repr

/-- Storing a child dict directly into the cache (`self.cache[tmp['path']] = tmp`):
the same dict viewed as a cache item; it has no `'entries'`/`'contents'` keys. -/
def childToItem (ch : Child) : Item :=
  { path := ch.path, tag := ch.tag, size := ch.size,
    client_modified := ch.clientModified, entries := none, contents := none,
    cachets := ch.cachets, is_deleted := ch.isDeleted, idTok := none }

/-! ## Association lists (Python dict operations) -/

/-- `d[key]` / `key in d` combined: first value bound to `key`. -/
def assocFind {κ α : Type} [DecidableEq κ] : List (κ × α) → κ → Option α
  | [], _ => none
  | (k, v) :: t, key => if k = key then some v else assocFind t key

/-- `d.pop(key)` (ignoring the returned value): drop every binding of `key`. -/
def assocErase {κ α : Type} [DecidableEq κ] (l : List (κ × α)) (key : κ) :
    List (κ × α) :=
  l.filter (fun x => !decide (x.1 = key))

/-- `d[key] = v` when `key` may or may not be present: bind `key` to `v`. -/
def assocSet {κ α : Type} [DecidableEq κ] (l : List (κ × α)) (key : κ) (v : α) :
    List (κ × α) :=
  (key, v) :: assocErase l key

/-- In-place update of an existing binding (`d[key]['f'] = ...` style). -/
def assocUpd {κ α : Type} [DecidableEq κ] (l : List (κ × α)) (key : κ) (v : α) :
    List (κ × α) :=
  l.map (fun x => if x.1 = key then (key, v) else x)

/-! ## Paths (`os.path.dirname`) -/

/-- Characters up to and including the last `/` (empty if there is none). -/
def upToLastSlash (l : List Char) : List Char :=
  (l.reverse.dropWhile (fun c => !decide (c = '/'))).reverse

/-- Drop trailing slashes. -/
def dropTrailingSlashes (l : List Char) : List Char :=
  (l.reverse.dropWhile (fun c => decide (c = '/'))).reverse

/-- `os.path.dirname` for POSIX paths: head of the path up to the last `/`,
with trailing slashes stripped unless the head is all slashes. -/
def dirname (s : String) : String :=
  let head := upToLastSlash s.data
  if head.isEmpty then ""
  else if head.all (fun c => decide (c = '/')) then String.mk head
  else String.mk (dropTrailingSlashes head)

/-! ## Remote store oracle -/

/-- One observable call to the Dropbox API. -/
inductive RemoteCall where
  | metadata (path : String)
  | createFolder (path : String)
  | deleteObj (path : String)
  | move (old newPath : String)
  | sessionStart (data : List Nat)
  | sessionAppend (sid : String) (offset : Nat) (data : List Nat)
  | sessionCommit (path : String) (sid : String) (offset : Nat)
  | download (path : String)
  deriving DecidableEq, Repr

/-- The remote endpoint's observable behaviour.  `meta p` is the outcome of
`dbxMetadata(p)` (`none` covers every failure the source folds into
`return False`: 404, transient errors, listing a file path).  `rfiles p` is
the byte content served by `files_download(p)`. -/
structure Remote where
  meta : String → Option Item
  rfiles : String → List Nat

/-- Global configuration and process environment (`write_cache`,
`cache_time`, `pwd`/`os` ids, `time()`/`datetime.now()`, and the two
`strptime`/`mktime` conversions used by `getattr`). -/
structure Env where
  write_cache : Nat
  cache_time : Nat
  now : Nat
  nowStr : String
  uid : Nat
  gid : Nat
  parseZ : String → Nat
  parseSp : String → Nat

/-! ## Cache -/

/-- `self.cache`: path-keyed dict of metadata items. -/
abbrev Cache := List (String × Item)

def cacheGet (c : Cache) (p : String) : Option Item := assocFind c p

def cacheMem (c : Cache) (p : String) : Bool := (cacheGet c p).isSome

/-- `removeFromCache` (ff4d.py lines 184-217).  Returns the function's
boolean result together with the new cache. -/
def removeFromCache (c : Cache) (path : String) : Bool × Cache :=
  match cacheGet c path with
  | some item =>
    let c1 :=
      if item.entries.isSome && item.contents.isSome then
        -- `for tmp in item['contents']: ... self.cache.pop(tmp['path'])`
        (item.contents.getD []).foldl (fun acc tmp => assocErase acc tmp.path) c
      else
        -- `cur_path = os.path.dirname(path)` branch
        let cur := dirname path
        match cacheGet c cur with
        | some par => if par.entries.isSome then assocErase c cur else c
        | none => c
    (true, assocErase c1 path)
  | none => (false, c)

/-- `item['cachets'] < int(time())` (ff4d.py line 229).  The key is always
present on items that carry `'entries'` (every writer stamps it); a missing
key would raise in Python, modelled as stale. -/
def itemStale (it : Item) (now : Nat) : Bool :=
  match it.cachets with
  | some t => decide (t < now)
  | none => true

/-- `dbxMetadata` (ff4d.py lines 73-109): remote listing with every failure
collapsed to `False`; on success the result's `'path'` is overwritten with
the query path. -/
def dbxMetadata (r : Remote) (path : String) : Option Item :=
  (r.meta path).map (fun it => { it with path := path })

/-- `getDropboxMetadata` (ff4d.py lines 220-305).  Result: the returned item
(`none` = `False`), the updated cache, and the trace of remote calls. -/
def getDropboxMetadata (env : Env) (r : Remote) (c : Cache) (path : String)
    (deep : Bool) : Option Item × Cache × List RemoteCall :=
  match cacheGet c path with
  | some item =>
    if (item.entries.isSome && itemStale item env.now)
        || (deep && item.contents.isNone) then
      -- refresh branch (lines 230-269); the whole body is inside `try`
      match dbxMetadata r path with
      | none =>
        -- `item` is now `False`; `item.get` raises, caught at line 267,
        -- and line 270 returns the reassigned `item` (= `False`)
        (none, c, [RemoteCall.metadata path])
      | some ni =>
        if ni.is_deleted then (none, c, [RemoteCall.metadata path])
        else
          let c1 := (removeFromCache c path).2
          let stamp := env.now + env.cache_time
          let ni' := { ni with cachets := some stamp }
          let c2 := assocSet c1 path ni'
          match ni'.entries with
          | none =>
            -- `item['entries']` raises KeyError, caught at line 267;
            -- the already-updated cache stands and `item` is returned
            (some ni', c2, [RemoteCall.metadata path])
          | some es =>
            let c3 := es.foldl (fun acc tmp =>
              if !tmp.hasEntries && !tmp.isDeleted then
                assocSet acc tmp.path
                  (childToItem { tmp with cachets := some stamp })
              else acc) c2
            (some ni', c3, [RemoteCall.metadata path])
    else (some item, c, [])
  | none =>
    -- miss branch (lines 272-305)
    if (cacheGet c (dirname path)).elim false (fun p => p.contents.isSome) then
      (none, c, [])
    else
      match dbxMetadata r path with
      | none => (none, c, [RemoteCall.metadata path])
      | some it =>
        if it.is_deleted then (none, c, [RemoteCall.metadata path])
        else
          let it' := { it with cachets := some (env.now + env.cache_time) }
          let c1 := assocSet c path it'
          let c2 :=
            match it'.entries with
            | some es =>
              es.foldl (fun acc tmp => assocSet acc tmp.path (childToItem tmp)) c1
            | none => c1
          (some it', c2, [RemoteCall.metadata path])

/-! ## File handles -/

/-- A remote read stream (`files_download(path)[1].raw`): the served path and
the current read position. -/
structure RStream where
  path : String
  pos : Nat
  deriving DecidableEq, Repr

/-- The write-side `'f'` dict: `{'upload_id': ..., 'offset': ..., 'buf': ...}`. -/
structure WriteF where
  upload_id : String
  offset : Nat
  buf : List Nat
  deriving DecidableEq, Repr

/-- The `'f'` slot of a handle: `False`, a raw download stream, or the
chunked-upload dict. -/
inductive FVal where
  | fFalse
  | fStream (s : RStream)
  | fW (w : WriteF)
  deriving DecidableEq, Repr

/-- One entry of `self.openfh`. -/
structure Handle where
  mode : String
  f : FVal
  lock : Bool
  eoffset : Nat
  deriving DecidableEq, Repr

/-- Mutable state of the `Dropbox` object: `self.cache`, `self.openfh`,
`self.runfh`, plus the counter the remote uses to mint fresh session ids. -/
structure FS where
  cache : Cache
  openfh : List (Nat × Handle)
  runfh : List (Nat × Bool)
  fresh : Nat
  deriving Repr

def emptyFS : FS := { cache := [], openfh := [], runfh := [], fresh := 0 }

def newHandle (mode : String) : Handle :=
  { mode := mode, f := FVal.fFalse, lock := false, eoffset := 0 }

/-- `getFH` (ff4d.py lines 167-173): the smallest `i` in `range(1, 8193)` not
in `self.openfh`; `none` models the `return False` fall-through. -/
def getFH (st : FS) (mode : String) : Option Nat × FS :=
  match (List.range' 1 8192).find? (fun i => (assocFind st.openfh i).isNone) with
  | some i =>
    (some i, { st with openfh := (i, newHandle mode) :: st.openfh,
                       runfh := (i, false) :: st.runfh })
  | none => (none, st)

/-- `releaseFH` (ff4d.py lines 176-181): pop the handle, `false` if absent. -/
def releaseFH (st : FS) (fh : Nat) : Bool × FS :=
  if (assocFind st.openfh fh).isSome then
    (true, { st with openfh := assocErase st.openfh fh,
                     runfh := assocErase st.runfh fh })
  else (false, st)

/-- Replace the `Handle` stored under `fh` (`self.openfh[fh][...] = ...`). -/
def setHandle (st : FS) (fh : Nat) (h : Handle) : FS :=
  { st with openfh := assocUpd st.openfh fh h }

/-! ## Chunked upload engine -/

/-- Session ids minted by the remote endpoint. -/
def sessionName (n : Nat) : String := "sid" ++ toString n

structure UpRes where
  upload_id : String
  offset : Nat
  deriving DecidableEq, Repr

/-- `dbxChunkedUpload` (ff4d.py lines 124-134): `upload_id == ""` starts a
session, otherwise appends at the given cursor; the result carries
`offset + len(data)` and the session id.  The remote append response is
modelled as echoing the session id (the source reads `result['session_id']`
from the SDK response; the SDK is external).  Returns the result, the new
fresh-id counter, and the remote call made. -/
def dbxChunkedUpload (fresh : Nat) (data : List Nat) (upload_id : String)
    (offset : Nat) : UpRes × Nat × RemoteCall :=
  if upload_id = "" then
    ({ upload_id := sessionName fresh, offset := offset + data.length },
     fresh + 1, RemoteCall.sessionStart data)
  else
    ({ upload_id := upload_id, offset := offset + data.length },
     fresh, RemoteCall.sessionAppend upload_id offset data)

/-! ## Filesystem operations -/

/-- `mkdir` (ff4d.py lines 310-322).  `ok` is whether the remote
`files_create_folder` call succeeds; on failure the source raises `EIO`
before touching the cache. -/
def mkdir (ok : Bool) (c : Cache) (path : String) (mode : Nat) :
    Except Errno Nat × Cache × List RemoteCall :=
  if ok then
    (Except.ok 0, (removeFromCache c (dirname path)).2, [RemoteCall.createFolder path])
  else (Except.error Errno.eio, c, [RemoteCall.createFolder path])

/-- `rmdir` (ff4d.py lines 325-340). -/
def rmdir (ok : Bool) (c : Cache) (path : String) :
    Except Errno Nat × Cache × List RemoteCall :=
  if ok then
    let c1 := (removeFromCache c path).2
    (Except.ok 0, (removeFromCache c1 (dirname path)).2, [RemoteCall.deleteObj path])
  else (Except.error Errno.eio, c, [RemoteCall.deleteObj path])

/-- `unlink` (ff4d.py lines 343-360).  Note the source evicts the cache
*before* the remote delete, so the eviction persists on failure. -/
def unlink (ok : Bool) (c : Cache) (path : String) :
    Except Errno Nat × Cache × List RemoteCall :=
  let c1 := (removeFromCache c path).2
  if ok then (Except.ok 0, c1, [RemoteCall.deleteObj path])
  else (Except.error Errno.eio, c1, [RemoteCall.deleteObj path])

/-- `rename` (ff4d.py lines 363-380). -/
def rename (ok : Bool) (c : Cache) (old newPath : String) :
    Except Errno Nat × Cache × List RemoteCall :=
  if ok then
    (Except.ok 0, (removeFromCache c old).2, [RemoteCall.move old newPath])
  else (Except.error Errno.eio, c, [RemoteCall.move old newPath])

/-- `dbxFilehandle` (ff4d.py lines 148-150): opens a download stream for
`path`.  The `seek` parameter is accepted and ignored by the source, so the
stream always starts at position 0. -/
def dbxFilehandle (path : String) (seek : Nat) : RStream :=
  { path := path, pos := 0 }

/-- Reading `length` bytes from a raw download stream. -/
def streamRead (r : Remote) (s : RStream) (length : Nat) : List Nat × RStream :=
  let rbytes := ((r.rfiles s.path).drop s.pos).take length
  (rbytes, { s with pos := s.pos + rbytes.length })

/-- `read` (ff4d.py lines 383-424): open the stream lazily, reopen when the
requested offset differs from the tracked expected offset, read up to
`length` bytes, and record `eoffset = offset + len(rbytes)`. -/
def readOp (r : Remote) (st : FS) (path : String) (length offset fh : Nat) :
    Except Errno (List Nat) × FS × List RemoteCall :=
  match assocFind st.openfh fh with
  | none =>
    -- `self.openfh[fh]['lock']` raises KeyError before the try block
    (Except.error Errno.eKey, st, [])
  | some h =>
    let opened :
        FVal × List RemoteCall :=
      match h.f with
      | FVal.fFalse => (FVal.fStream (dbxFilehandle path offset), [RemoteCall.download path])
      | fv =>
        if h.eoffset ≠ offset then
          (FVal.fStream (dbxFilehandle path offset), [RemoteCall.download path])
        else (fv, [])
    match opened with
    | (FVal.fStream s, tr) =>
      let (rbytes, s') := streamRead r s length
      let h' : Handle :=
        { h with f := FVal.fStream s', lock := false,
                 eoffset := offset + rbytes.length }
      (Except.ok rbytes,
       { setHandle st fh h' with runfh := assocUpd st.runfh fh false }, tr)
    | (fv, tr) =>
      -- `.read(length)` on the write dict raises, caught and surfaced as EIO;
      -- `runfh[fh]` was set True at entry and is left set
      (Except.error Errno.eio,
       { setHandle st fh { h with f := fv } with runfh := assocUpd st.runfh fh true }, tr)

/-- `write` (ff4d.py lines 427-465).  The `offset` argument is accepted but
never consulted.  Every successful branch returns `len(buf)`. -/
def write (env : Env) (st : FS) (path : String) (buf : List Nat) (offset : Nat)
    (fh : Nat) : Except Errno Nat × FS × List RemoteCall :=
  match assocFind st.openfh fh with
  | some h =>
    match h.f with
    | FVal.fFalse =>
      if buf.length ≥ env.write_cache || buf.length < 4096 then
        let (res, fr, call) := dbxChunkedUpload st.fresh buf "" 0
        (Except.ok buf.length,
         { setHandle st fh
             { h with f := FVal.fW { upload_id := res.upload_id, offset := res.offset, buf := [] } }
           with fresh := fr },
         [call])
      else
        (Except.ok buf.length,
         setHandle st fh
           { h with f := FVal.fW { upload_id := "", offset := 0, buf := buf } },
         [])
    | FVal.fW w =>
      if buf.length + w.buf.length ≥ env.write_cache || buf.length < 4096 then
        let (res, fr, call) := dbxChunkedUpload st.fresh (w.buf ++ buf) w.upload_id w.offset
        (Except.ok buf.length,
         { setHandle st fh
             { h with f := FVal.fW { upload_id := res.upload_id, offset := res.offset, buf := [] } }
           with fresh := fr },
         [call])
      else
        (Except.ok buf.length,
         setHandle st fh { h with f := FVal.fW { w with buf := w.buf ++ buf } },
         [])
    | FVal.fStream _ =>
      -- subscripting the raw stream raises, caught and surfaced as EIO
      (Except.error Errno.eio, st, [])
  | none => (Except.error Errno.eio, st, [])

/-- `create` (ff4d.py lines 485-498): allocate a `'w'` handle and cache a
zero-size file placeholder for `path` (no `'cachets'` stamp). -/
def create (env : Env) (st : FS) (path : String) (mode : Nat) : Option Nat × FS :=
  let (fh?, st1) := getFH st "w"
  let cachedfh : Item :=
    { path := path, tag := some Tag.file, size := 0,
      client_modified := some env.nowStr, entries := none, contents := none,
      cachets := none, is_deleted := false, idTok := none }
  (fh?, { st1 with cache := assocSet st1.cache path cachedfh })

/-- `release` (ff4d.py lines 501-525): if an upload session is open, flush a
nonempty buffer and commit — at the handle's *stored* offset (the flush
result is discarded); a still-buffering handle (`upload_id == ""`) commits
nothing; write handles evict the parent folder's cache entry; the handle is
deallocated last. -/
def release (st : FS) (path : String) (fh : Nat) :
    Except Errno Nat × FS × List RemoteCall :=
  match assocFind st.openfh fh with
  | none => (Except.error Errno.eKey, st, [])
  | some h =>
    let (tr, fr) :=
      match h.f with
      | FVal.fW w =>
        if w.upload_id ≠ "" then
          let (flushTr, fr') :=
            if w.buf ≠ [] then
              let (_, fr2, call) := dbxChunkedUpload st.fresh w.buf w.upload_id w.offset
              ([call], fr2)
            else ([], st.fresh)
          (flushTr ++ [RemoteCall.sessionCommit path w.upload_id w.offset], fr')
        else ([], st.fresh)
      | _ => ([], st.fresh)
    let c1 :=
      if h.mode = "w" then (removeFromCache st.cache (dirname path)).2 else st.cache
    let st1 : FS := { st with cache := c1, fresh := fr }
    (Except.ok 0, (releaseFH st1 fh).2, tr)

/-! ## Attributes -/

def S_IFDIR : Nat := 16384
def S_IFREG : Nat := 32768

structure Attrs where
  st_mode : Nat
  st_size : Nat
  st_ctime : Nat
  st_mtime : Nat
  st_atime : Nat
  st_uid : Nat
  st_gid : Nat
  st_nlink : Nat
  deriving DecidableEq, Repr

/-- `modified.endswith('Z')`: the last character is `Z`. -/
def endsWithZ (s : String) : Bool := s.data.getLast? = some 'Z'

/-- The modified-time computation of `getattr` (ff4d.py lines 573-581): two
accepted textual formats, dispatched on a trailing `Z`, else current time. -/
def modifiedOf (env : Env) (it : Item) : Nat :=
  match it.client_modified with
  | some s => if endsWithZ s then env.parseZ s else env.parseSp s
  | none => env.now

/-- `getattr` (ff4d.py lines 555-613).  `.ok none` is the implicit `None`
fall-through; a missing `'.tag'` key raises (`Errno.eKey`). -/
def getattr (env : Env) (r : Remote) (c : Cache) (path : String) :
    Except Errno (Option Attrs) × Cache × List RemoteCall :=
  match getDropboxMetadata env r c path false with
  | (none, c1, tr) => (Except.error Errno.enoent, c1, tr)
  | (some item, c1, tr) =>
    let modified := modifiedOf env item
    if item.entries.isSome || item.tag = some Tag.folder then
      (Except.ok (some
        { st_mode := S_IFDIR ||| 0o755, st_size := 0, st_ctime := modified,
          st_mtime := modified, st_atime := env.now, st_uid := env.uid,
          st_gid := env.gid, st_nlink := 2 }), c1, tr)
    else
      match item.tag with
      | some Tag.file =>
        (Except.ok (some
          { st_mode := S_IFREG ||| 0o644, st_size := item.size, st_ctime := modified,
            st_mtime := modified, st_atime := env.now, st_uid := env.uid,
            st_gid := env.gid, st_nlink := 1 }), c1, tr)
      | some Tag.folder => (Except.ok none, c1, tr)
      | none => (Except.error Errno.eKey, c1, tr)

/-! ## Allocation helpers (iterated `getFH`) -/

/-- State after `n` successive `getFH` calls. -/
def allocNState : Nat → FS → FS
  | 0, st => st
  | n + 1, st => allocNState n (getFH st "r").2

/-- The ids returned by `n` successive `getFH` calls. -/
def allocIds : Nat → FS → List Nat
  | 0, _ => []
  | n + 1, st =>
    match getFH st "r" with
    | (some i, st') => i :: allocIds n st'
    | (none, st') => allocIds n st'

/-! ## Concrete scenario inputs -/

/-- A concrete configuration: threshold 4096 (its minimum), TTL 120s. -/
def env1 : Env :=
  { write_cache := 4096, cache_time := 120, now := 1000,
    nowStr := "2026-01-01T00:00:00Z", uid := 1000, gid := 1000,
    parseZ := fun _ => 777, parseSp := fun _ => 0 }

/-- A remote endpoint that knows no paths and serves no bytes. -/
def r1 : Remote := { meta := fun _ => none, rfiles := fun _ => [] }

def scB10 : List Nat := List.replicate 10 1
def scB5 : List Nat := List.replicate 5 2

/-- End-to-end scenario 2 pipeline: `create("/f")`, `write(10 bytes, 0)`,
`write(5 bytes, 10)`, `release`, `getattr("/f")`. -/
def scStA : FS := (create env1 emptyFS "/f" 420).2

def scWr1 := write env1 scStA "/f" scB10 0 1

def scWr2 := write env1 scWr1.2.1 "/f" scB5 10 1

def scRel := release scWr2.2.1 "/f" 1

def scFin := getattr env1 r1 scRel.2.1.cache "/f"

/-- A cached file entry (stale at `env1.now = 1000`). -/
def scFItem : Item :=
  { path := "/f", tag := some Tag.file, size := 7, client_modified := none,
    entries := none, contents := none, cachets := some 10,
    is_deleted := false, idTok := none }

/-- A remote endpoint that would serve fresh metadata for any path. -/
def scR6 : Remote :=
  { meta := fun p =>
      some { path := p, tag := some Tag.file, size := 99, client_modified := none,
             entries := none, contents := none, cachets := none,
             is_deleted := false, idTok := none },
    rfiles := fun _ => [] }

/-- C3 input: folder `/d` cached with listing containing child `/d/c`, the
child cached separately — exactly the shape `getDropboxMetadata` produces. -/
def scChild3 : Child :=
  { path := "/d/c", tag := some Tag.file, size := 1, clientModified := none,
    isDeleted := false, hasEntries := false, cachets := some 100 }

def scDItem : Item :=
  { path := "/d", tag := none, size := 0, client_modified := none,
    entries := some [scChild3], contents := none, cachets := some 100,
    is_deleted := false, idTok := none }

def scC3cache : Cache := [("/d", scDItem), ("/d/c", childToItem scChild3)]

/-- C2 input: remote file `/a` with three distinguishable bytes, and one
fresh ReadOnly handle numbered 5. -/
def scR2 : Remote :=
  { meta := fun _ => none,
    rfiles := fun p => if p = "/a" then [10, 20, 30] else [] }

def scSt2 : FS :=
  { cache := [], openfh := [(5, newHandle "r")], runfh := [(5, false)], fresh := 0 }

/-- Witness inputs: a 10000-byte threshold and a 5000-byte buffer (between
`minChunk` and the threshold, so it is buffered). -/
def scEnvW : Env := { env1 with write_cache := 10000 }

def scBufBig : List Nat := List.replicate 5000 7

def scHW : Handle := newHandle "w"

/-- The handle state after the first scenario write: session `sid0` open at
committed offset 10 with an empty buffer. -/
def scH1 : Handle :=
  { mode := "w", f := FVal.fW { upload_id := "sid0", offset := 10, buf := [] },
    lock := false, eoffset := 0 }

/-- A fresh (unexpired at `env1.now = 1000`) cached folder entry. -/
def scDFresh : Item := { scDItem with cachets := some 2000 }

/-- The handle table holds exactly the ids `1..k`. -/
def keyProp (st : FS) (k : Nat) : Prop :=
  ∀ j, (assocFind st.openfh j).isSome = true ↔ 1 ≤ j ∧ j ≤ k

/-! ## Helper lemmas -/

theorem assocFind_erase {κ α : Type} [DecidableEq κ] (l : List (κ × α)) (k j : κ) :
    assocFind (assocErase l k) j = if j = k then none else assocFind l j := by
  induction l with
  | nil =>
    simp only [assocErase, List.filter_nil, assocFind]
    split <;> rfl
  | cons a t ih =>
    obtain ⟨ak, av⟩ := a
    by_cases hak : ak = k <;> by_cases hjk : j = k <;> by_cases haj : ak = j <;>
      simp_all [assocErase, assocFind, List.filter_cons]

theorem cacheGet_removeFromCache (c : Cache) (p : String) :
    cacheGet (removeFromCache c p).2 p = none := by
  unfold removeFromCache
  cases h : cacheGet c p with
  | none => simp [h]
  | some it => simp [h, cacheGet, assocFind_erase]

theorem unlink_cache (ok : Bool) (c : Cache) (path : String) :
    (unlink ok c path).2.1 = (removeFromCache c path).2 := by
  cases ok <;> rfl

theorem find?_range'_some_of (p : Nat → Bool) (n : Nat) :
    ∀ s i, s ≤ i → i < s + n → p i = true →
    (∀ j, s ≤ j → j < i → p j = false) →
    (List.range' s n).find? p = some i := by
  induction n with
  | zero =>
    intro s i h1 h2 _ _
    exact absurd h2 (by omega)
  | succ n ih =>
    intro s i h1 h2 hp hmin
    rw [List.range'_succ]
    rcases Nat.eq_or_lt_of_le h1 with heq | hlt
    · subst heq
      rw [List.find?_cons_of_pos _ hp]
    · rw [List.find?_cons_of_neg _ (by simp [hmin s le_rfl hlt])]
      exact ih (s + 1) i hlt (by omega) hp (fun j hj1 hj2 => hmin j (by omega) hj2)

theorem find?_range'_none_of (p : Nat → Bool) (n : Nat) :
    ∀ s, (∀ j, s ≤ j → j < s + n → p j = false) →
    (List.range' s n).find? p = none := by
  induction n with
  | zero => intro s _; rfl
  | succ n ih =>
    intro s hall
    rw [List.range'_succ,
        List.find?_cons_of_neg _ (by simp [hall s le_rfl (by omega)])]
    exact ih (s + 1) (fun j h1 h2 => hall j (by omega) (by omega))

theorem find?_range'_bounds (p : Nat → Bool) (n : Nat) :
    ∀ s i, (List.range' s n).find? p = some i →
    s ≤ i ∧ i < s + n ∧ p i = true ∧ ∀ j, s ≤ j → j < i → p j = false := by
  induction n with
  | zero => intro s i h; exact absurd h (by simp)
  | succ n ih =>
    intro s i h
    rw [List.range'_succ] at h
    by_cases hps : p s
    · rw [List.find?_cons_of_pos _ hps] at h
      injection h with hh
      subst hh
      exact ⟨le_rfl, by omega, hps, fun j h1 h2 => absurd h2 (by omega)⟩
    · rw [List.find?_cons_of_neg _ hps] at h
      obtain ⟨h1, h2, h3, h4⟩ := ih (s + 1) i h
      refine ⟨by omega, by omega, h3, fun j hj1 hj2 => ?_⟩
      by_cases hjs : j = s
      · subst hjs
        exact Bool.eq_false_iff.mpr hps
      · exact h4 j (by omega) hj2

theorem keyProp_empty : keyProp emptyFS 0 := by
  intro j
  simp only [emptyFS, assocFind, Option.isSome_none]
  constructor
  · intro h; exact absurd h (by simp)
  · intro h; omega

theorem getFH_step (st : FS) (k : Nat) (mode : String) (hk : keyProp st k)
    (hlt : k < 8192) :
    getFH st mode =
      (some (k + 1),
       { st with openfh := (k + 1, newHandle mode) :: st.openfh,
                 runfh := (k + 1, false) :: st.runfh })
    ∧ keyProp { st with openfh := (k + 1, newHandle mode) :: st.openfh,
                        runfh := (k + 1, false) :: st.runfh } (k + 1) := by
  have hfind : (List.range' 1 8192).find?
      (fun i => (assocFind st.openfh i).isNone) = some (k + 1) := by
    apply find?_range'_some_of _ 8192 1 (k + 1) (by omega) (by omega)
    · have hns : ¬ (assocFind st.openfh (k + 1)).isSome = true :=
        fun h => absurd ((hk (k + 1)).mp h) (by omega)
      cases hopt : assocFind st.openfh (k + 1) with
      | none => simp
      | some v => rw [hopt] at hns; simp at hns
    · intro j hj1 hj2
      have hs : (assocFind st.openfh j).isSome = true := (hk j).mpr ⟨hj1, by omega⟩
      cases hopt : assocFind st.openfh j with
      | none => rw [hopt] at hs; simp at hs
      | some v => simp
  constructor
  · simp [getFH, hfind]
  · intro j
    have hcons : assocFind
        ({ st with openfh := (k + 1, newHandle mode) :: st.openfh,
                   runfh := (k + 1, false) :: st.runfh } : FS).openfh j
        = if k + 1 = j then some (newHandle mode) else assocFind st.openfh j := rfl
    rw [hcons]
    by_cases hj : k + 1 = j
    · subst hj
      simp
    · rw [if_neg hj]
      constructor
      · intro h
        have := (hk j).mp h
        omega
      · intro hrange
        exact (hk j).mpr ⟨hrange.1, by omega⟩

theorem allocIds_range (n : Nat) :
    ∀ (st : FS) (k : Nat), keyProp st k → k + n ≤ 8192 →
    allocIds n st = List.range' (k + 1) n
    ∧ keyProp (allocNState n st) (k + n) := by
  induction n with
  | zero =>
    intro st k h _
    exact ⟨rfl, h⟩
  | succ n ih =>
    intro st k hk hle
    obtain ⟨hget, hk'⟩ := getFH_step st k "r" hk (by omega)
    have hsnd : (getFH st "r").2
        = { st with openfh := (k + 1, newHandle "r") :: st.openfh,
                    runfh := (k + 1, false) :: st.runfh } :=
      congrArg Prod.snd hget
    obtain ⟨ha, hb⟩ := ih (getFH st "r").2 (k + 1) (hsnd ▸ hk') (by omega)
    have h1 : allocIds (n + 1) st = (k + 1) :: allocIds n (getFH st "r").2 := by
      simp only [allocIds, hget]
    have h2 : allocNState (n + 1) st = allocNState n (getFH st "r").2 := rfl
    constructor
    · rw [h1, ha, List.range'_succ]
    · rw [h2, show k + (n + 1) = (k + 1) + n by omega]
      exact hb

theorem keyProp_release (st : FS) (k r : Nat) (hk : keyProp st k)
    (h1 : 1 ≤ r) (h2 : r ≤ k) :
    ∀ j, (assocFind (releaseFH st r).2.openfh j).isSome = true
      ↔ (1 ≤ j ∧ j ≤ k ∧ j ≠ r) := by
  have hsome : (assocFind st.openfh r).isSome = true := (hk r).mpr ⟨h1, h2⟩
  intro j
  simp only [releaseFH, if_pos hsome]
  rw [assocFind_erase]
  by_cases hj : j = r
  · simp [hj]
  · rw [if_neg hj]
    constructor
    · intro h
      obtain ⟨ha, hb⟩ := (hk j).mp h
      exact ⟨ha, hb, hj⟩
    · intro ⟨ha, hb, _⟩
      exact (hk j).mpr ⟨ha, hb⟩

theorem isNone_of_not_isSome {α : Type} (o : Option α) (h : ¬ o.isSome = true) :
    o.isNone = true := by
  cases o <;> simp_all

theorem isNone_false_of_isSome {α : Type} (o : Option α) (h : o.isSome = true) :
    o.isNone = false := by
  cases o <;> simp_all

theorem gdm_of_absent (env : Env) (r : Remote) (c : Cache) (p : String)
    (h1 : cacheGet c p = none) (h2 : r.meta p = none) :
    (getDropboxMetadata env r c p false).1 = none
    ∧ (getDropboxMetadata env r c p false).2.1 = c := by
  simp only [getDropboxMetadata, h1]
  split
  · exact ⟨rfl, rfl⟩
  · simp [dbxMetadata, h2]

theorem getattr_of_none (env : Env) (r : Remote) (c : Cache) (p : String)
    (h : (getDropboxMetadata env r c p false).1 = none) :
    (getattr env r c p).1 = Except.error Errno.enoent := by
  rcases hgm : getDropboxMetadata env r c p false with ⟨it?, c1, tr⟩
  rw [hgm] at h
  simp only at h
  subst h
  simp [getattr, hgm]

/-! ## Claim theorems -/

/-- C1 (counterexample): in end-to-end scenario 2 with threshold 4096, the
engine does NOT stay buffering: the first 10-byte write immediately starts
an upload session (a write of fewer than 4096 bytes always uploads), the
second write issues a session *append* call, and the final `attributesOf`
reports size 0, not 15 — `release` evicts only the parent folder entry, so
`create`'s zero-size placeholder for `/f` is still served from the cache. -/
theorem c1_buffering_cex :
    scWr1.2.2 = [RemoteCall.sessionStart scB10]
    ∧ (assocFind scWr1.2.1.openfh 1).map Handle.f
        = some (FVal.fW { upload_id := "sid0", offset := 10, buf := [] })
    ∧ "sid0" ≠ ""
    ∧ scWr2.2.2 = [RemoteCall.sessionAppend "sid0" 10 scB5]
    ∧ scFin.1 = Except.ok (some
        { st_mode := S_IFREG ||| 0o644, st_size := 0, st_ctime := 777, st_mtime := 777,
          st_atime := 1000, st_uid := 1000, st_gid := 1000, st_nlink := 1 })
    ∧ (0 : Nat) ≠ 15 :=
  ⟨rfl, rfl, by decide, rfl, rfl, by decide⟩

/-- C1 (amended): with threshold 4096, `write(10 bytes, 0)` immediately
starts an upload session, `write(5 bytes, 10)` appends (cursor 10 → 15),
`release` issues only the commit at cursor 15 (the buffer is already empty),
and `attributesOf("/f")` then reports size 0: the zero-size placeholder
cached by `create` remains, since `release` invalidates only the parent
folder's entry. -/
theorem c1_actual_scenario :
    scWr1.2.2 ++ scWr2.2.2 ++ scRel.2.2
      = [RemoteCall.sessionStart scB10, RemoteCall.sessionAppend "sid0" 10 scB5,
         RemoteCall.sessionCommit "/f" "sid0" 15]
    ∧ scRel.1 = Except.ok 0
    ∧ scFin.1 = Except.ok (some
        { st_mode := S_IFREG ||| 0o644, st_size := 0, st_ctime := 777, st_mtime := 777,
          st_atime := 1000, st_uid := 1000, st_gid := 1000, st_nlink := 1 }) :=
  ⟨rfl, rfl, rfl⟩

/-- C2 (code bug, evaluated at the failing input): a read of 1 byte at
offset 1 on a fresh handle for the 3-byte file `/a = [10, 20, 30]` returns
`[10]` — the stream is opened at position 0 because `dbxFilehandle` ignores
its seek argument — while a stream positioned at the requested offset would
return `[20]`.  The tracked expected offset is still set to
`offset + bytesReturned = 2`. -/
theorem c2_read_position_bug :
    (readOp scR2 scSt2 "/a" 1 1 5).1 = Except.ok [10]
    ∧ assocFind (readOp scR2 scSt2 "/a" 1 1 5).2.1.openfh 5
        = some { mode := "r", f := FVal.fStream { path := "/a", pos := 1 },
                 lock := false, eoffset := 2 }
    ∧ ((scR2.rfiles "/a").drop 1).take 1 = [20]
    ∧ ([10] : List Nat) ≠ [20] :=
  ⟨rfl, rfl, rfl, by decide⟩

/-- C3 (code bug, evaluated at the failing input): invalidating folder `/d`,
whose cached listing contains child `/d/c` (itself cached), leaves the child
in the cache — the child-removal branch requires a `'contents'` key that no
cache writer ever sets — and a subsequent lookup of `/d/c` is a cache *hit*
with no remote call, not a Miss.  Invalidating an absent path is a no-op
returning `false`. -/
theorem c3_invalidate_children_bug :
    removeFromCache scC3cache "/d" = (true, [("/d/c", childToItem scChild3)])
    ∧ getDropboxMetadata env1 r1 (removeFromCache scC3cache "/d").2 "/d/c" false
        = (some (childToItem scChild3), [("/d/c", childToItem scChild3)], [])
    ∧ removeFromCache [] "/x" = (false, []) :=
  ⟨rfl, rfl, rfl⟩

/-- C4 (counterexample): `deleteFile` mutates the cache even when the remote
call fails: with `/f` cached, a failing `unlink("/f")` raises EIO but leaves
the cache empty — the eviction happens before the remote call. -/
theorem c4_unlink_eviction_cex :
    unlink false [("/f", scFItem)] "/f"
      = (Except.error Errno.eio, [], [RemoteCall.deleteObj "/f"])
    ∧ cacheGet [("/f", scFItem)] "/f" = some scFItem :=
  ⟨rfl, rfl⟩

/-- C4 (amended): `createFolder`, `deleteFolder` and `rename` surface a
remote failure as a generic I/O error and leave the cache exactly as it was;
`deleteFile` also surfaces EIO but evicts the path (and possibly its
parent's cached listing) *before* the remote call, so on failure that
eviction persists. -/
theorem c4_failure_cache_behavior :
    ∀ (c : Cache) (path old newPath : String) (mode : Nat),
    mkdir false c path mode
      = (Except.error Errno.eio, c, [RemoteCall.createFolder path])
    ∧ rmdir false c path = (Except.error Errno.eio, c, [RemoteCall.deleteObj path])
    ∧ rename false c old newPath
      = (Except.error Errno.eio, c, [RemoteCall.move old newPath])
    ∧ unlink false c path
      = (Except.error Errno.eio, (removeFromCache c path).2, [RemoteCall.deleteObj path]) := by
  intro c path old newPath mode
  exact ⟨rfl, rfl, rfl, rfl⟩

/-- C6 (counterexample): a present but stale *file* entry does not attempt a
remote refresh before returning: `/f` is cached with expiry stamp 10 while
`now = 1000` (stale), the remote would serve fresh metadata, yet the lookup
returns the stale entry unchanged and makes no remote call. -/
theorem c6_stale_file_cex :
    itemStale scFItem env1.now = true
    ∧ getDropboxMetadata env1 scR6 [("/f", scFItem)] "/f" false
        = (some scFItem, [("/f", scFItem)], []) :=
  ⟨rfl, rfl⟩

/-- C7 (counterexample): a write at offset 999 on a fresh write handle —
not contiguous with anything previously accepted — is accepted and returns
the full byte count instead of being rejected as unsupported. -/
theorem c7_noncontiguous_accepted_cex :
    (write env1 scStA "/f" [7, 7, 7] 999 1).1 = Except.ok 3
    ∧ (write env1 scStA "/f" [7, 7, 7] 999 1).1 ≠ Except.error Errno.eopnotsupp :=
  ⟨rfl, fun h => by injection (rfl : (write env1 scStA "/f" [7, 7, 7] 999 1).1 = Except.ok 3).symm.trans h⟩

/-- C7 (amended): `write` ignores its offset argument entirely — the result
and state are identical for any two offsets, so a non-contiguous offset is
never rejected as unsupported; any offset on a fresh write handle is
accepted with the full byte count returned. -/
theorem c7_write_offset_ignored :
    (∀ (env : Env) (st : FS) (path : String) (buf : List Nat) (o1 o2 fh : Nat),
      write env st path buf o1 fh = write env st path buf o2 fh)
    ∧ (∀ (env : Env) (st : FS) (path : String) (buf : List Nat) (offset fh : Nat)
        (h : Handle), assocFind st.openfh fh = some h → h.f = FVal.fFalse →
      (write env st path buf offset fh).1 = Except.ok buf.length) := by
  constructor
  · intro env st path buf o1 o2 fh
    rfl
  · intro env st path buf offset fh h hfind hf
    simp only [write, hfind, hf]
    split <;> rfl

/-- C7 witness: the amended theorem at a concrete input — a write at the
non-contiguous offset 999 behaves exactly like one at offset 0 and is
accepted. -/
theorem c7_write_offset_ignored_witness :
    write env1 scStA "/f" [7, 7, 7] 999 1 = write env1 scStA "/f" [7, 7, 7] 0 1
    ∧ (write env1 scStA "/f" [7, 7, 7] 999 1).1 = Except.ok 3 :=
  ⟨c7_write_offset_ignored.1 env1 scStA "/f" [7, 7, 7] 999 0 1,
   c7_write_offset_ignored.2 env1 scStA "/f" [7, 7, 7] 999 1 (newHandle "w") rfl rfl⟩

/-- C10: every successful write returns the full input length: for any open
handle whose `'f'` slot is not a raw read stream (i.e. a write handle,
fresh or mid-upload), `write` returns `len(buf)` — both when the bytes are
merely buffered and when they trigger a session start or append. -/
theorem c10_write_full_length (env : Env) (st : FS) (path : String)
    (buf : List Nat) (offset fh : Nat) (h : Handle)
    (hfind : assocFind st.openfh fh = some h)
    (hns : ∀ s, h.f ≠ FVal.fStream s) :
    (write env st path buf offset fh).1 = Except.ok buf.length := by
  cases hf : h.f with
  | fFalse =>
    simp only [write, hfind, hf]
    split <;> rfl
  | fW w =>
    simp only [write, hfind, hf]
    split <;> rfl
  | fStream s => exact absurd hf (hns s)

/-- C10 witness: the theorem at a concrete input — a 10-byte first write
returns 10. -/
theorem c10_write_full_length_witness :
    (write env1 scStA "/f" scB10 0 1).1 = Except.ok scB10.length :=
  c10_write_full_length env1 scStA "/f" scB10 0 1 (newHandle "w") rfl
    (fun s h => FVal.noConfusion h)

/-- C5: the first write on a fresh handle with `len(buf) >= write_cache` or
`len(buf) < 4096` starts an upload session immediately with the full
payload (SessionOpen with `committedOffset = len(buf)`); otherwise the
bytes are buffered locally (Buffering, `upload_id = ""`); and on every
subsequent write, a write of fewer than 4096 bytes flushes the accumulated
buffer immediately — regardless of the buffer's size — via
`dbxChunkedUpload` (session start when still buffering, append when a
session is open). -/
theorem c5_write_threshold (env : Env) (st : FS) (path : String)
    (buf : List Nat) (offset fh : Nat) (h : Handle)
    (hfind : assocFind st.openfh fh = some h) :
    (h.f = FVal.fFalse →
      (buf.length ≥ env.write_cache ∨ buf.length < 4096) →
      write env st path buf offset fh =
        (Except.ok buf.length,
         { setHandle st fh
             { h with f := FVal.fW ⟨sessionName st.fresh, buf.length, []⟩ }
           with fresh := st.fresh + 1 },
         [RemoteCall.sessionStart buf]))
    ∧ (h.f = FVal.fFalse →
      buf.length < env.write_cache → 4096 ≤ buf.length →
      write env st path buf offset fh =
        (Except.ok buf.length,
         setHandle st fh
           { h with f := FVal.fW { upload_id := "", offset := 0, buf := buf } },
         []))
    ∧ (∀ w, h.f = FVal.fW w → buf.length < 4096 →
      write env st path buf offset fh =
        (Except.ok buf.length,
         { setHandle st fh
             { h with f := FVal.fW ⟨(dbxChunkedUpload st.fresh (w.buf ++ buf) w.upload_id w.offset).1.upload_id, (dbxChunkedUpload st.fresh (w.buf ++ buf) w.upload_id w.offset).1.offset, []⟩ }
           with fresh := (dbxChunkedUpload st.fresh (w.buf ++ buf) w.upload_id w.offset).2.1 },
         [(dbxChunkedUpload st.fresh (w.buf ++ buf) w.upload_id w.offset).2.2])) := by
  refine ⟨?_, ?_, ?_⟩
  · intro hf hor
    simp only [write, hfind, hf]
    split
    · simp [dbxChunkedUpload]
    · rename_i hcond
      simp only [Bool.or_eq_true, decide_eq_true_eq] at hcond
      omega
  · intro hf hsmall hbig
    simp only [write, hfind, hf]
    split
    · rename_i hcond
      simp only [Bool.or_eq_true, decide_eq_true_eq] at hcond
      omega
    · rfl
  · intro w hf hlt
    simp only [write, hfind, hf]
    split
    · rcases hdc : dbxChunkedUpload st.fresh (w.buf ++ buf) w.upload_id w.offset
        with ⟨res, fr, call⟩
      simp [hdc]
    · rename_i hcond
      simp only [Bool.or_eq_true, decide_eq_true_eq] at hcond
      omega

/-- C5 witness: the theorem at concrete inputs — a 3-byte first write
(below 4096) starts a session at once; a 5000-byte first write under a
10000-byte threshold is buffered; a 2-byte write on an open session
flushes immediately. -/
theorem c5_write_threshold_witness :
    write env1 scStA "/f" [9, 9, 9] 0 1 =
      (Except.ok 3,
       { setHandle scStA 1 { scHW with f := FVal.fW ⟨"sid0", 3, []⟩ }
         with fresh := 1 },
       [RemoteCall.sessionStart [9, 9, 9]])
    ∧ write scEnvW scStA "/f" scBufBig 0 1 =
      (Except.ok scBufBig.length,
       setHandle scStA 1 { scHW with f := FVal.fW ⟨"", 0, scBufBig⟩ },
       [])
    ∧ write env1 scWr1.2.1 "/f" [8, 8] 0 1 =
      (Except.ok 2,
       { setHandle scWr1.2.1 1 { scH1 with f := FVal.fW ⟨"sid0", 12, []⟩ }
         with fresh := 1 },
       [RemoteCall.sessionAppend "sid0" 10 [8, 8]]) :=
  ⟨(c5_write_threshold env1 scStA "/f" [9, 9, 9] 0 1 scHW rfl).1 rfl
     (Or.inr (by norm_num)),
   (c5_write_threshold scEnvW scStA "/f" scBufBig 0 1 scHW rfl).2.1 rfl
     (by show (List.replicate 5000 7).length < scEnvW.write_cache
         rw [List.length_replicate]; decide)
     (by show 4096 ≤ (List.replicate 5000 7).length
         rw [List.length_replicate]; decide),
   (c5_write_threshold env1 scWr1.2.1 "/f" [8, 8] 0 1 scH1 rfl).2.2
     { upload_id := "sid0", offset := 10, buf := [] } rfl (by norm_num)⟩

/-- C6 (amended): a cached entry is served unchanged with no remote call as
long as it has no cached listing (file entries — even stale ones — are
returned as-is, never refreshed) or while its listing is unexpired; a stale
*folder* entry (cached listing, expired stamp) attempts exactly one remote
metadata call; a path absent from both the cache and the remote is a Miss
and leaves the cache unchanged. -/
theorem c6_lookup_behavior (env : Env) (r : Remote) (c : Cache) (p : String) :
    (∀ it, cacheGet c p = some it →
      ((it.entries = none → getDropboxMetadata env r c p false = (some it, c, []))
       ∧ (∀ t, it.entries.isSome → it.cachets = some t → ¬ t < env.now →
           getDropboxMetadata env r c p false = (some it, c, []))
       ∧ (∀ t, it.entries.isSome → it.cachets = some t → t < env.now →
           (getDropboxMetadata env r c p false).2.2 = [RemoteCall.metadata p])))
    ∧ (cacheGet c p = none → r.meta p = none →
        (getDropboxMetadata env r c p false).1 = none
        ∧ (getDropboxMetadata env r c p false).2.1 = c) := by
  constructor
  · intro it hit
    refine ⟨?_, ?_, ?_⟩
    · intro hent
      simp [getDropboxMetadata, hit, hent]
    · intro t hsome hct hnlt
      simp [getDropboxMetadata, hit, itemStale, hct, hnlt]
    · intro t hsome hct hlt
      simp only [getDropboxMetadata, hit]
      rw [if_pos]
      · cases hdm : dbxMetadata r p with
        | none => rfl
        | some ni =>
          by_cases hd : ni.is_deleted
          · simp [hd]
          · simp only [hd, if_false]
            rcases hne : ni.entries with _ | es <;> simp [hne]
      · simp [itemStale, hct, hlt, hsome]
  · intro hmiss hrm
    exact gdm_of_absent env r c p hmiss hrm

/-- C6 witness: the amended theorem at concrete inputs — the stale file
`/f` is served as-is; the fresh folder `/d` is served as-is; the stale
folder `/d` triggers one metadata call; an unknown path is a Miss. -/
theorem c6_lookup_behavior_witness :
    getDropboxMetadata env1 scR6 [("/f", scFItem)] "/f" false
      = (some scFItem, [("/f", scFItem)], [])
    ∧ getDropboxMetadata env1 scR6 [("/d", scDFresh)] "/d" false
      = (some scDFresh, [("/d", scDFresh)], [])
    ∧ (getDropboxMetadata env1 scR6 [("/d", scDItem)] "/d" false).2.2
      = [RemoteCall.metadata "/d"]
    ∧ (getDropboxMetadata env1 r1 [] "/x" false).1 = none :=
  ⟨((c6_lookup_behavior env1 scR6 [("/f", scFItem)] "/f").1 scFItem rfl).1 rfl,
   ((c6_lookup_behavior env1 scR6 [("/d", scDFresh)] "/d").1 scDFresh rfl).2.1
     2000 rfl rfl (by decide),
   ((c6_lookup_behavior env1 scR6 [("/d", scDItem)] "/d").1 scDItem rfl).2.2
     100 rfl rfl (by decide),
   ((c6_lookup_behavior env1 r1 [] "/x").2 rfl rfl).1⟩

/-- C9: for every path the lookup resolves, `attributesOf` reports: folders
with mode `S_IFDIR ||| 0o755`, size 0, link count 2; files with mode
`S_IFREG ||| 0o644`, the stored size, link count 1; both with the
process's uid/gid, access time = current time, and modification time
dispatched between the two accepted textual timestamp formats by the
trailing `Z` (or the current time when absent).  An unresolved path — in
particular one just removed by `deleteFile` when the remote no longer knows
it — signals NotFound (ENOENT). -/
theorem c9_getattr_attributes (env : Env) (r : Remote) (c : Cache) (path : String) :
    (∀ it, (getDropboxMetadata env r c path false).1 = some it →
      ((it.entries.isSome = true ∨ it.tag = some Tag.folder →
         (getattr env r c path).1 = Except.ok (some
           { st_mode := S_IFDIR ||| 0o755, st_size := 0,
             st_ctime := modifiedOf env it, st_mtime := modifiedOf env it,
             st_atime := env.now, st_uid := env.uid, st_gid := env.gid,
             st_nlink := 2 }))
       ∧ (it.entries = none → it.tag = some Tag.file →
         (getattr env r c path).1 = Except.ok (some
           { st_mode := S_IFREG ||| 0o644, st_size := it.size,
             st_ctime := modifiedOf env it, st_mtime := modifiedOf env it,
             st_atime := env.now, st_uid := env.uid, st_gid := env.gid,
             st_nlink := 1 }))))
    ∧ ((getDropboxMetadata env r c path false).1 = none →
        (getattr env r c path).1 = Except.error Errno.enoent)
    ∧ (∀ it, it.client_modified = none → modifiedOf env it = env.now)
    ∧ (∀ it s, it.client_modified = some s →
        modifiedOf env it = if endsWithZ s then env.parseZ s else env.parseSp s)
    ∧ (∀ ok, r.meta path = none →
        (getattr env r (unlink ok c path).2.1 path).1 = Except.error Errno.enoent) := by
  refine ⟨?_, ?_, ?_, ?_, ?_⟩
  · intro it hit
    rcases hgm : getDropboxMetadata env r c path false with ⟨it?, c1, tr⟩
    rw [hgm] at hit
    simp only at hit
    subst hit
    constructor
    · intro hfold
      simp only [getattr, hgm]
      rw [if_pos (show (it.entries.isSome || decide (it.tag = some Tag.folder)) = true
            by simpa using hfold)]
    · intro hent hfile
      simp only [getattr, hgm]
      rw [if_neg (show ¬ (it.entries.isSome || decide (it.tag = some Tag.folder)) = true
            by simp [hent, hfile])]
      simp [hfile]
  · exact getattr_of_none env r c path
  · intro it hcm
    simp [modifiedOf, hcm]
  · intro it s hcm
    simp [modifiedOf, hcm]
  · intro ok hrm
    rw [unlink_cache]
    exact getattr_of_none env r (removeFromCache c path).2 path
      (gdm_of_absent env r (removeFromCache c path).2 path
        (cacheGet_removeFromCache c path) hrm).1

/-- C9 witness: the theorem at concrete inputs — folder attributes for the
cached fresh folder `/d`, file attributes for the placeholder-free file
entry, ENOENT after `deleteFile` of `/f`. -/
theorem c9_getattr_attributes_witness :
    (getattr env1 scR6 [("/d", scDFresh)] "/d").1 = Except.ok (some
      { st_mode := S_IFDIR ||| 0o755, st_size := 0,
        st_ctime := modifiedOf env1 scDFresh, st_mtime := modifiedOf env1 scDFresh,
        st_atime := 1000, st_uid := 1000, st_gid := 1000, st_nlink := 2 })
    ∧ (getattr env1 scR6 [("/f", scFItem)] "/f").1 = Except.ok (some
      { st_mode := S_IFREG ||| 0o644, st_size := 7,
        st_ctime := modifiedOf env1 scFItem, st_mtime := modifiedOf env1 scFItem,
        st_atime := 1000, st_uid := 1000, st_gid := 1000, st_nlink := 1 })
    ∧ (getattr env1 r1 (unlink true [("/f", scFItem)] "/f").2.1 "/f").1
      = Except.error Errno.enoent :=
  ⟨((c9_getattr_attributes env1 scR6 [("/d", scDFresh)] "/d").1 scDFresh rfl).1
     (Or.inl rfl),
   ((c9_getattr_attributes env1 scR6 [("/f", scFItem)] "/f").1 scFItem rfl).2
     rfl rfl,
   (c9_getattr_attributes env1 r1 [("/f", scFItem)] "/f").2.2.2.2 true rfl⟩

theorem getFH_fst_of_find? (st : FS) (mode : String) (o : Option Nat)
    (h : (List.range' 1 8192).find? (fun i => (assocFind st.openfh i).isNone) = o) :
    (getFH st mode).1 = o := by
  unfold getFH
  rw [h]
  cases o <;> rfl

/-- C8: handle allocation returns the smallest unused id in the fixed range
1..8192 (any successful `getFH` yields an in-range id that is free while
every smaller positive id is in use); allocating K ≤ 8192 handles from the
empty table yields exactly the pairwise-distinct ids 1..K; after releasing
id r the next allocation returns r again — reuse before previously-unused
ids are touched; and allocating with all 8192 ids in use signals
exhaustion (`none`, the source's `return False`) rather than a valid id. -/
theorem c8_filehandle_allocation :
    (∀ (st : FS) (mode : String) (i : Nat) (st' : FS),
       getFH st mode = (some i, st') →
       1 ≤ i ∧ i ≤ 8192 ∧ assocFind st.openfh i = none
       ∧ ∀ j, 1 ≤ j → j < i → (assocFind st.openfh j).isSome = true)
    ∧ (∀ K, K ≤ 8192 →
        allocIds K emptyFS = List.range' 1 K ∧ (allocIds K emptyFS).Nodup)
    ∧ (∀ K r, 1 ≤ r → r ≤ K → K ≤ 8192 →
        (getFH (releaseFH (allocNState K emptyFS) r).2 "r").1 = some r)
    ∧ (getFH (allocNState 8192 emptyFS) "r").1 = none := by
  refine ⟨?_, ?_, ?_, ?_⟩
  · intro st mode i st' hget
    have hf : (List.range' 1 8192).find?
        (fun x => (assocFind st.openfh x).isNone) = some i := by
      cases hfd : (List.range' 1 8192).find?
          (fun x => (assocFind st.openfh x).isNone) with
      | none =>
        unfold getFH at hget
        rw [hfd] at hget
        exact absurd (congrArg Prod.fst hget) (by simp)
      | some i' =>
        unfold getFH at hget
        rw [hfd] at hget
        have hi : i' = i := by
          have := congrArg Prod.fst hget
          simpa using this
        exact congrArg some hi
    obtain ⟨hb1, hb2, hb3, hb4⟩ := find?_range'_bounds _ 8192 1 i hf
    refine ⟨hb1, by omega, ?_, ?_⟩
    · exact Option.isNone_iff_eq_none.mp hb3
    · intro j hj1 hj2
      have hfalse := hb4 j hj1 hj2
      cases hopt : assocFind st.openfh j with
      | none => rw [hopt] at hfalse; simp at hfalse
      | some v => simp
  · intro K hK
    obtain ⟨ha, _⟩ := allocIds_range K emptyFS 0 keyProp_empty (by omega)
    exact ⟨ha, ha ▸ List.nodup_range' _ _⟩
  · intro K r hr1 hr2 hK
    obtain ⟨_, hkp⟩ := allocIds_range K emptyFS 0 keyProp_empty (by omega)
    have hkp' : keyProp (allocNState K emptyFS) K := by
      rw [show (0 : Nat) + K = K by omega] at hkp
      exact hkp
    have hrel := keyProp_release (allocNState K emptyFS) K r hkp' hr1 hr2
    have hfind : (List.range' 1 8192).find?
        (fun x => (assocFind (releaseFH (allocNState K emptyFS) r).2.openfh x).isNone)
        = some r := by
      apply find?_range'_some_of _ 8192 1 r hr1 (by omega)
      · exact isNone_of_not_isSome _ (fun h => ((hrel r).mp h).2.2 rfl)
      · intro j hj1 hj2
        exact isNone_false_of_isSome _ ((hrel j).mpr ⟨hj1, by omega, by omega⟩)
    exact getFH_fst_of_find? _ _ _ hfind
  · obtain ⟨_, hkp⟩ := allocIds_range 8192 emptyFS 0 keyProp_empty (by omega)
    have hkp' : keyProp (allocNState 8192 emptyFS) 8192 := by
      rw [show (0 : Nat) + 8192 = 8192 by omega] at hkp
      exact hkp
    have hfind : (List.range' 1 8192).find?
        (fun x => (assocFind (allocNState 8192 emptyFS).openfh x).isNone) = none := by
      apply find?_range'_none_of
      intro j h1 h2
      exact isNone_false_of_isSome _ ((hkp' j).mpr ⟨h1, by omega⟩)
    exact getFH_fst_of_find? _ _ _ hfind

/-- C8 witness: the theorem at concrete inputs — three allocations from the
empty table give ids 1, 2, 3 (distinct); releasing id 2 makes the next
allocation return 2; and the very first allocation returns the smallest
free id, 1. -/
theorem c8_filehandle_allocation_witness :
    (allocIds 3 emptyFS = List.range' 1 3 ∧ (allocIds 3 emptyFS).Nodup)
    ∧ (getFH (releaseFH (allocNState 3 emptyFS) 2).2 "r").1 = some 2
    ∧ (1 ≤ 1 ∧ 1 ≤ 8192 ∧ assocFind emptyFS.openfh 1 = none
        ∧ ∀ j, 1 ≤ j → j < 1 → (assocFind emptyFS.openfh j).isSome = true) :=
  ⟨c8_filehandle_allocation.2.1 3 (by omega),
   c8_filehandle_allocation.2.2.1 3 2 (by omega) (by omega) (by omega),
   c8_filehandle_allocation.1 emptyFS "r" 1 (getFH emptyFS "r").2 rfl⟩

end FF4D
